import Mathlib

set_option maxHeartbeats 1000000

/-!
Verification development for the knife4g documentation converter.

The development embeds, as executable Lean definitions, the two conversion
engines of the repository:

* `convertToSwagger` together with its recursive helper `buildReqParameterTree`
  (the dynamically typed engine working on parsed YAML values, embedded here
  over the `JValue` model of JSON/YAML data), and
* `convertToOpenAPI3` together with its schema/operation helpers (the typed
  engine working on the OpenAPI document structs).

Go maps of type `map[string]interface{}` are modelled as association lists
`List (String × JValue)` with unique keys supplied by the YAML parser; a `nil`
map is modelled as `none : Option (List (String × JValue))` where the source
distinguishes `nil` from empty.  The unbounded recursion of
`buildReqParameterTree` (the source recurses through schema references without
a cycle guard) is modelled with an explicit fuel parameter: `none` means the
fuel ran out, which corresponds to the source failing to terminate within the
given depth.
-/

/-- JSON/YAML-like dynamic values, the model of the Go type `interface{}`
as produced by `yaml.Unmarshal` into `map[string]interface{}`. -/
inductive JValue : Type where
  | null : JValue
  | bool : Bool → JValue
  | num : Int → JValue
  | str : String → JValue
  | arr : List JValue → JValue
  | obj : List (String × JValue) → JValue

/-- Model of the Go type `map[string]interface{}`: an association list with the
keys unique (Go maps cannot hold duplicate keys). -/
abbrev JObj := List (String × JValue)

/-- Key lookup in an object, the model of Go map indexing `m[k]`. -/
def jlookup : JObj → String → Option JValue
  | [], _ => none
  | (k, v) :: rest, key => if k = key then some v else jlookup rest key

/-- Key update in an object, the model of the Go map assignment `m[k] = v`. -/
def setObj : JObj → String → JValue → JObj
  | [], k, v => [(k, v)]
  | (k', v') :: rest, k, v =>
    if k' = k then (k, v) :: rest else (k', v') :: setObj rest k v

/-- Characters after the last occurrence of the slash character (the whole
input when no slash occurs), accumulator version. -/
def afterLastSlashAux (acc : List Char) : List Char → List Char
  | [] => acc
  | c :: cs => if c = '/' then afterLastSlashAux [] cs else afterLastSlashAux (acc ++ [c]) cs

/-- Model of the reference-name extraction `ref[strings.LastIndex(ref, "/")+1:]`
used in both `convertToSwagger` and `buildReqParameterTree`: the suffix of the
Ref string after its last slash (the whole string when it has no slash). -/
def refName (ref : String) : String :=
  String.mk (afterLastSlashAux [] ref.data)

/-- Model of `strings.ToLower`, applied character by character (schema names
are ASCII identifiers, for which this matches the Go function). -/
def lowerName (s : String) : String :=
  String.mk (s.data.map Char.toLower)

/-- String field extraction with zero-value default: the model of
`if s, ok := m[k].(string); ok { x = s }` starting from `x = ""`. -/
def strField (m : JObj) (k : String) : String :=
  match jlookup m k with
  | some (JValue.str s) => s
  | _ => ""

/-- Model of the `requiredFields` set built in `buildReqParameterTree`: the
string elements of the `required` array of the schema (non-array values and
non-string elements are ignored, as in the source type assertions). -/
def requiredSet (model : JObj) : List String :=
  match jlookup model "required" with
  | some (JValue.arr reqs) =>
    reqs.filterMap (fun r => match r with | JValue.str s => some s | _ => none)
  | _ => []

/-- Model of the `$ref` suffix extraction for a property map in
`buildReqParameterTree`: the `childSchemaValue` variable, which stays `""`
when the property has no string-valued `$ref` key. -/
def propRef (pm : JObj) : String :=
  match jlookup pm "$ref" with
  | some (JValue.str r) => refName r
  | _ => ""

/-- Model of the `childModel` computation in `buildReqParameterTree`: the
empty schema unless the extracted reference name is nonempty, the schemas map
is present (non-nil) and the name maps to an object in it. -/
def resolveChildModel (schemas : Option JObj) (name : String) : JObj :=
  if name = "" then []
  else
    match schemas with
    | none => []
    | some ss =>
      match jlookup ss name with
      | some (JValue.obj m) => m
      | _ => []

mutual
/-- Parameter tree node, the model of the `param` map built by
`buildReqParameterTree` with its keys `name`, `description`, `type`,
`schemaValue`, `in`, `require` and `children`. -/
inductive ParamNode : Type where
  | mk (name description schemaType schemaValue inLoc : String)
       (require : Bool) (children : ParamList)

/-- List of parameter nodes, mutually defined with `ParamNode` so that all
recursions over the tree are structural. -/
inductive ParamList : Type where
  | nil : ParamList
  | cons (head : ParamNode) (tail : ParamList) : ParamList
end

/-- The `name` entry of a parameter node. -/
def ParamNode.name : ParamNode → String
  | .mk n _ _ _ _ _ _ => n

/-- The `description` entry of a parameter node. -/
def ParamNode.description : ParamNode → String
  | .mk _ d _ _ _ _ _ => d

/-- The `type` entry of a parameter node. -/
def ParamNode.schemaType : ParamNode → String
  | .mk _ _ t _ _ _ _ => t

/-- The `schemaValue` entry of a parameter node. -/
def ParamNode.schemaValue : ParamNode → String
  | .mk _ _ _ sv _ _ _ => sv

/-- The `in` entry of a parameter node (the location tag). -/
def ParamNode.inLoc : ParamNode → String
  | .mk _ _ _ _ loc _ _ => loc

/-- The `require` entry of a parameter node. -/
def ParamNode.require : ParamNode → Bool
  | .mk _ _ _ _ _ r _ => r

/-- The `children` entry of a parameter node. -/
def ParamNode.children : ParamNode → ParamList
  | .mk _ _ _ _ _ _ cs => cs

/-- Conversion of a parameter node list to a plain list. -/
def ParamList.toList : ParamList → List ParamNode
  | .nil => []
  | .cons c cs => c :: cs.toList

mutual
/-- Total number of nodes of a parameter tree. -/
def countNodes : ParamNode → Nat
  | .mk _ _ _ _ _ _ cs => 1 + countList cs

/-- Total number of nodes of a list of parameter trees. -/
def countList : ParamList → Nat
  | .nil => 0
  | .cons c cs => countNodes c + countList cs
end

mutual
/-- Rendering of a parameter node as the JSON object the source builds
(`map[string]interface{}` with the seven keys, `children` rendered as an
array). -/
def paramToJ : ParamNode → JValue
  | .mk n d t sv loc r cs =>
    JValue.obj [("name", JValue.str n), ("description", JValue.str d),
      ("type", JValue.str t), ("schemaValue", JValue.str sv),
      ("in", JValue.str loc), ("require", JValue.bool r),
      ("children", JValue.arr (paramListToJ cs))]

/-- Rendering of a parameter node list as a list of JSON objects. -/
def paramListToJ : ParamList → List JValue
  | .nil => []
  | .cons c cs => paramToJ c :: paramListToJ cs
end

/-- Model of the `for propName, prop := range props` loop of
`buildReqParameterTree`, abstracted over the recursive call (which is passed
with one unit of fuel consumed).  Properties whose value is not an object are
skipped, exactly as the failing type assertion skips them in the source; for
object properties the child type, description, reference name and child model
are extracted as in the source and the child subtree is built recursively. -/
def buildChildrenWith
    (build : String → String → String → String → Bool → String → JObj → Option JObj → Option ParamNode)
    (reqF : List String) (schemas : Option JObj) : JObj → Option ParamList
  | [] => some ParamList.nil
  | (propName, JValue.obj propMap) :: rest =>
    match build propName (strField propMap "description") (strField propMap "type")
        (propRef propMap) (reqF.contains propName) ""
        (resolveChildModel schemas (propRef propMap)) schemas with
    | none => none
    | some child =>
      match buildChildrenWith build reqF schemas rest with
      | none => none
      | some others => some (ParamList.cons child others)
  | _ :: rest => buildChildrenWith build reqF schemas rest

/-- Model of `buildReqParameterTree` from the source, with an explicit fuel
parameter bounding the recursion depth (the source recurses unboundedly
through schema references; `none` here models exhaustion of the given depth).
The node carries the six scalar arguments; its children come from the
`properties` object of the model when present, each property being recursively
expanded against the schemas map. -/
def buildReqParameterTree :
    Nat → String → String → String → String → Bool → String → JObj → Option JObj →
    Option ParamNode
  | 0, _, _, _, _, _, _, _, _ => none
  | Nat.succ f, name, description, schemaType, schemaValue, required, inLoc, model, schemas =>
    match jlookup model "properties" with
    | some (JValue.obj props) =>
      match buildChildrenWith (buildReqParameterTree f) (requiredSet model) schemas props with
      | none => none
      | some children =>
        some (ParamNode.mk name description schemaType schemaValue inLoc required children)
    | _ => some (ParamNode.mk name description schemaType schemaValue inLoc required ParamList.nil)

/-- Resolvable reference targets contributed by a property list: for each
object-valued property carrying a `$ref`, the extracted name when it is
nonempty and maps to an object in the schemas map.  These are exactly the
names through which `buildReqParameterTree` recurses into the schemas map. -/
def propsRefTargets (schemas : JObj) : JObj → List String
  | [] => []
  | (_, JValue.obj pm) :: rest =>
    (if propRef pm = "" then []
     else
       match jlookup schemas (propRef pm) with
       | some (JValue.obj _) => [propRef pm]
       | _ => []) ++ propsRefTargets schemas rest
  | _ :: rest => propsRefTargets schemas rest

/-- Resolvable reference targets of a schema model: the targets contributed by
its `properties` object (none when the model has no object-valued
`properties`). -/
def schemaRefs (schemas model : JObj) : List String :=
  match jlookup model "properties" with
  | some (JValue.obj props) => propsRefTargets schemas props
  | _ => []

/-- Occurrence count contributed by a property list, abstracted over the
recursive count of a child model (see `occCount`): every object-valued
property contributes one occurrence plus the count of the model its reference
resolves to. -/
def occProps (rec : JObj → Nat) (schemas : Option JObj) : JObj → Nat
  | [] => 0
  | (_, JValue.obj pm) :: rest =>
    1 + rec (resolveChildModel schemas (propRef pm)) + occProps rec schemas rest
  | _ :: rest => occProps rec schemas rest

/-- Number of expanded property occurrences reachable from a schema model,
counted once per reference path: every object-valued property contributes one
occurrence plus the occurrences of the schema its reference resolves to (zero
further occurrences when it has no resolvable reference).  This is the
specification-level count of the parameter tree, amended from the distinct
count of the specification to count shared references once per referencing
occurrence.  The fuel bounds the reference-chasing depth exactly as in
`buildReqParameterTree`. -/
def occCount : Nat → Option JObj → JObj → Nat
  | 0, _, _ => 0
  | Nat.succ f, schemas, model =>
    match jlookup model "properties" with
    | some (JValue.obj props) => occProps (occCount f schemas) schemas props
    | _ => 0

/-- Modelled from the spec: the property names of a schema model (the keys of
its `properties` object), used by the distinct reachable-property count of
specification section 8. -/
def propKeys (model : JObj) : List String :=
  match jlookup model "properties" with
  | some (JValue.obj props) => props.map Prod.fst
  | _ => []

/-- Modelled from the spec: the set of schema names reachable from the initial
name set by following resolvable references, computed by adding one reachable
name per step; a fuel of the schemas-map size is always sufficient. -/
def reachableSchemas (schemas : JObj) : Nat → List String → List String
  | 0, seen => seen
  | Nat.succ n, seen =>
    match (seen.flatMap (fun s =>
        match jlookup schemas s with
        | some (JValue.obj m) => schemaRefs schemas m
        | _ => [])).filter (fun t => ¬ seen.contains t) with
    | [] => seen
    | t :: _ => reachableSchemas schemas n (seen ++ [t])

/-- Modelled from the spec: "the number of distinct schema properties
reachable from the root via resolvable references" (specification section 8):
properties are identified by schema name and property name, each counted
once. -/
def distinctReachablePropCount (schemas : JObj) (root : String) : Nat :=
  (((reachableSchemas schemas schemas.length [root]).dedup).map (fun s =>
    match jlookup schemas s with
    | some (JValue.obj m) => (propKeys m).dedup.length
    | _ => 0)).sum

/-- The in-memory document model of the dynamically typed engine: the Go
struct `OpenAPI` of the source, with `Paths` and `Components` parsed as
dynamic maps (`Components` may be a nil map, modelled as `none`). -/
structure OpenAPI : Type where
  openapi : String
  info : JValue
  paths : JObj
  components : Option JObj
  tags : JValue

/-- The output document of `convertToSwagger`: the keys the source assigns
into its result map. -/
structure Swagger : Type where
  openapi : String
  info : JValue
  tags : JValue
  servers : List JValue
  components : JObj
  paths : JObj

/-- The hardcoded server entry of `convertToSwagger`. -/
def swaggerDefaultServer : JValue :=
  JValue.obj [("url", JValue.str "http://localhost:8000"),
    ("description", JValue.str "Inferred Url")]

/-- Model of the `schemas` variable of `convertToSwagger`: the `schemas` entry
of the components map when the map is non-nil and the entry is an object,
`none` (a nil Go map) otherwise. -/
def schemasOf (components : Option JObj) : Option JObj :=
  match components with
  | none => none
  | some c =>
    match jlookup c "schemas" with
    | some (JValue.obj s) => some s
    | _ => none

/-- Model of the Go type assertion `x.(map[string]interface{})`: the object
payload when the value is an object, a failed assertion otherwise. -/
def objOf : JValue → Option JObj
  | JValue.obj o => some o
  | _ => none

/-- Model of the Go type assertion `x.(string)`. -/
def strOf : JValue → Option String
  | JValue.str s => some s
  | _ => none

/-- The qualifying test of the request-body loop of `convertToSwagger`: a
content entry qualifies when it is an object whose `schema` entry is an object
carrying a string `$ref`, the schemas map is non-nil and the reference name
maps to an object in it.  Returns the reference name, the resolved model and
the schemas map on success. -/
def contentEntryResolved (schemas : Option JObj) (cval : JValue) :
    Option (String × JObj × JObj) :=
  match objOf cval with
  | none => none
  | some cMap =>
  match (jlookup cMap "schema").bind objOf with
  | none => none
  | some schemaObj =>
  match (jlookup schemaObj "$ref").bind strOf with
  | none => none
  | some ref =>
  match schemas with
  | none => none
  | some ss =>
  match (jlookup ss (refName ref)).bind objOf with
  | none => none
  | some model => some (refName ref, model, ss)

/-- One iteration of the content loop of `convertToSwagger`: when the entry
qualifies, build the parameter tree rooted at the resolved model (name the
lowercased reference name, description, type and schemaValue the reference
name, required `true`, location `body`) and write it into the operation map
under `reqParameters` as a one-element array; otherwise leave the operation
map unchanged.  A `none` from the tree builder models non-termination of the
source and leaves the map unchanged. -/
def processContentEntry (fuel : Nat) (schemas : Option JObj) (op : JObj) (cval : JValue) :
    JObj :=
  match contentEntryResolved schemas cval with
  | some (rn, model, ss) =>
    match buildReqParameterTree fuel (lowerName rn) rn rn rn true "body" model (some ss) with
    | some param => setObj op "reqParameters" (JValue.arr [paramToJ param])
    | none => op
  | none => op

/-- The request-body processing of one operation map in `convertToSwagger`:
when the operation has an object `requestBody` with an object `content`, each
content entry is processed in turn (each qualifying entry overwrites the
`reqParameters` entry). -/
def processOp (fuel : Nat) (schemas : Option JObj) (op : JObj) : JObj :=
  match (jlookup op "requestBody").bind objOf with
  | some requestBody =>
    match (jlookup requestBody "content").bind objOf with
    | some content =>
      content.foldl (fun acc e => processContentEntry fuel schemas acc e.2) op
    | none => op
  | none => op

/-- Conversion of one path item in `convertToSwagger`: object items have each
object-valued operation processed by `processOp`, other values pass through
unchanged. -/
def convertPathItem (fuel : Nat) (schemas : Option JObj) (item : JValue) : JValue :=
  match item with
  | JValue.obj pathItem =>
    JValue.obj (pathItem.map (fun e =>
      match e.2 with
      | JValue.obj opMap => (e.1, JValue.obj (processOp fuel schemas opMap))
      | _ => (e.1, e.2)))
  | _ => item

/-- Model of `convertToSwagger`: copies `openapi`, `info` and `tags`, always
emits the hardcoded default server, emits a `schemas` entry in `components`
only when the source components carry an object `schemas` entry, and converts
every path item. -/
def convertToSwagger (fuel : Nat) (openapi : OpenAPI) : Swagger :=
  { openapi := openapi.openapi
    info := openapi.info
    tags := openapi.tags
    servers := [swaggerDefaultServer]
    components :=
      match schemasOf openapi.components with
      | some s => [("schemas", JValue.obj s)]
      | none => []
    paths := openapi.paths.map (fun e =>
      (e.1, convertPathItem fuel (schemasOf openapi.components) e.2)) }

/-- Post-state of the source document after `convertToSwagger` returns.  The
source loop aliases the operation maps of the input document: the assignment
`opMap["reqParameters"] = ...` writes into the very maps stored (behind
`interface{}` values) inside `openapi.Paths`, so after the call the nested
operation maps of the source document carry the `reqParameters` entries while
every other part of the document is untouched.  This definition makes that
post-state explicit: the document with every object operation map of every
object path item replaced by its processed version. -/
def docAfterConvert (fuel : Nat) (doc : OpenAPI) : OpenAPI :=
  { doc with paths := doc.paths.map (fun e =>
      (e.1, convertPathItem fuel (schemasOf doc.components) e.2)) }

/-- Specification-side predicate for the amended attachment condition: the
operation has a request body one of whose content entries carries a schema
object with a `$ref` that resolves in the (present) schemas map. -/
def hasResolvableBodyRef (schemas : Option JObj) (op : JObj) : Bool :=
  match (jlookup op "requestBody").bind objOf with
  | some requestBody =>
    match (jlookup requestBody "content").bind objOf with
    | some content =>
      content.any (fun e => (contentEntryResolved schemas e.2).isSome)
    | none => false
  | none => false

/-- Specification-side extraction of the `$ref` strings of the request-body
content schemas of an operation (the claim phrase "the operation has a
$ref-typed body schema" holds exactly when this list is nonempty). -/
def bodyRefs (op : JObj) : List String :=
  match jlookup op "requestBody" with
  | some (JValue.obj requestBody) =>
    match jlookup requestBody "content" with
    | some (JValue.obj content) =>
      content.foldr (fun e acc =>
        (match e.2 with
         | JValue.obj cMap =>
           match jlookup cMap "schema" with
           | some (JValue.obj schemaObj) =>
             match jlookup schemaObj "$ref" with
             | some (JValue.str ref) => [ref]
             | _ => []
           | _ => []
         | _ => []) ++ acc) []
    | _ => []
  | _ => []

/-- Scalar fields of the Schema struct of the typed engine.  The struct
declaration itself lives in a file of the repository outside `src/`; its
fields and their optionality are reconstructed from their uses in
`convertSchemaToOpenAPI3` (pointer fields become `Option`, slices become
lists, the numeric carrier is abstracted as `Int` since the converter only
passes the values through).  The recursive `Properties` field is split into
the wrapping `Schema` type below; together they carry exactly the fields of
the source struct. -/
structure SchemaCore : Type where
  Type' : String
  Format : String
  Title : String
  Description : String
  Default : Option JValue
  MultipleOf : Option Int
  Maximum : Option Int
  Minimum : Option Int
  ExclusiveMaximum : Bool
  ExclusiveMinimum : Bool
  MaxLength : Option Int
  MinLength : Option Int
  Pattern : String
  MaxItems : Option Int
  MinItems : Option Int
  UniqueItems : Bool
  MaxProperties : Option Int
  MinProperties : Option Int
  Required : List String
  Enum : List JValue
  Ref : String
  Nullable : Bool
  ReadOnly : Bool
  WriteOnly : Bool
  Deprecated : Bool

/-- Schema struct of the typed engine: its scalar fields plus the recursive
`Properties` map, which is an `Option` because the source distinguishes a nil
map (`schema.Properties != nil`) from an empty one. -/
inductive Schema : Type where
  | mk (core : SchemaCore) (Properties : Option (List (String × Schema)))

/-- Entry emitted only for a nonempty string field, the model of
`if schema.F != "" { result[k] = schema.F }`. -/
def strEntry (k v : String) : JObj :=
  if v = "" then [] else [(k, JValue.str v)]

/-- Entry emitted only for a non-nil numeric pointer field, the model of
`if schema.F != nil { result[k] = schema.F }`. -/
def numEntry (k : String) : Option Int → JObj
  | some n => [(k, JValue.num n)]
  | none => []

/-- Entry emitted only for a non-nil value field, the model of
`if schema.F != nil { result[k] = schema.F }`. -/
def optEntry (k : String) : Option JValue → JObj
  | some v => [(k, v)]
  | none => []

/-- Entry emitted only for a nonempty list field, the model of
`if len(schema.F) > 0 { result[k] = schema.F }`. -/
def listEntry (k : String) (vs : List JValue) : JObj :=
  match vs with
  | [] => []
  | _ => [(k, JValue.arr vs)]

/-- Assembly of the converted schema object of `convertSchemaToOpenAPI3` from
the scalar fields and the already-converted properties map: the result map in
source order, with conditional entries for the guarded fields and
unconditional entries for `exclusiveMaximum`, `exclusiveMinimum`,
`uniqueItems`, `nullable`, `readOnly`, `writeOnly` and `deprecated` (the
source always assigns these, emitting the explicit zero value). -/
def schemaObjOut (c : SchemaCore) (propsOut : Option JObj) : JObj :=
  strEntry "type" c.Type' ++ (strEntry "format" c.Format ++ (strEntry "title" c.Title ++
  (strEntry "description" c.Description ++ (optEntry "default" c.Default ++
  (numEntry "multipleOf" c.MultipleOf ++ (numEntry "maximum" c.Maximum ++
  (numEntry "minimum" c.Minimum ++
  ([("exclusiveMaximum", JValue.bool c.ExclusiveMaximum),
    ("exclusiveMinimum", JValue.bool c.ExclusiveMinimum)] ++
  (numEntry "maxLength" c.MaxLength ++ (numEntry "minLength" c.MinLength ++
  (strEntry "pattern" c.Pattern ++
  (numEntry "maxItems" c.MaxItems ++ (numEntry "minItems" c.MinItems ++
  ([("uniqueItems", JValue.bool c.UniqueItems)] ++
  (numEntry "maxProperties" c.MaxProperties ++ (numEntry "minProperties" c.MinProperties ++
  (listEntry "required" (c.Required.map JValue.str) ++ (listEntry "enum" c.Enum ++
  ((match propsOut with
    | some po => [("properties", JValue.obj po)]
    | none => []) ++
  (strEntry "$ref" c.Ref ++
  [("nullable", JValue.bool c.Nullable), ("readOnly", JValue.bool c.ReadOnly),
   ("writeOnly", JValue.bool c.WriteOnly),
   ("deprecated", JValue.bool c.Deprecated)]))))))))))))))))))))

mutual
/-- Model of `convertSchemaToOpenAPI3`: the result object assembled by
`schemaObjOut`, with the `properties` entry present exactly when the source
`Properties` map is non-nil, each property converted recursively. -/
def convertSchemaToOpenAPI3 : Schema → JObj
  | .mk core props =>
    schemaObjOut core
      (match props with
       | some ps => some (convertProps ps)
       | none => none)

/-- Recursive conversion of the `Properties` map of a schema. -/
def convertProps : List (String × Schema) → JObj
  | [] => []
  | (n, p) :: rest => (n, JValue.obj (convertSchemaToOpenAPI3 p)) :: convertProps rest
end

/-- Model of `convertSchemasToOpenAPI3`: every components entry converted. -/
def convertSchemasToOpenAPI3 (schemas : List (String × Schema)) : JObj :=
  schemas.map (fun e => (e.1, JValue.obj (convertSchemaToOpenAPI3 e.2)))

/-- Info struct of the typed document model (declared outside `src/`,
reconstructed from its uses in `convertToOpenAPI3`). -/
structure Info : Type where
  Title : String
  Version : String
  Description : String

/-- Server variable struct of the typed document model (declared outside
`src/`, reconstructed from its uses in `convertToOpenAPI3`). -/
structure ServerVariable : Type where
  Default : String
  Description : String
  Enum : List String

/-- Server struct of the typed document model (declared outside `src/`,
reconstructed from its uses in `convertToOpenAPI3`). -/
structure Server : Type where
  URL : String
  Description : String
  Variables : List (String × ServerVariable)

/-- Media type struct of the typed document model (declared outside `src/`,
reconstructed from its uses in `convertContentToOpenAPI3`). -/
structure MediaType : Type where
  Schema : Option Schema
  Example : Option JValue

/-- Request body struct of the typed document model (declared outside `src/`,
reconstructed from its uses in `convertOperationToOpenAPI3`). -/
structure RequestBody : Type where
  Required : Bool
  Content : List (String × MediaType)

/-- Response struct of the typed document model (declared outside `src/`,
reconstructed from its uses in `convertOperationToOpenAPI3`; `Content` is an
`Option` because the source tests `response.Content != nil`). -/
structure Response : Type where
  Description : String
  Content : Option (List (String × MediaType))

/-- Operation struct of the typed document model (declared outside `src/`,
reconstructed from its uses in `convertOperationToOpenAPI3`). -/
structure Operation : Type where
  Tags : List String
  Summary : String
  OperationID : String
  Description : String
  RequestBody : Option RequestBody
  Responses : List (String × Response)

/-- Path item struct of the typed document model (declared outside `src/`,
reconstructed from its uses in `convertToOpenAPI3`). -/
structure PathItem : Type where
  Get : Option Operation
  Post : Option Operation
  Put : Option Operation
  Delete : Option Operation
  Patch : Option Operation

/-- Components struct of the typed document model (declared outside `src/`,
reconstructed from its use in `convertToOpenAPI3`). -/
structure Components : Type where
  Schemas : List (String × Schema)

/-- The typed document model `OpenAPI3` (declared outside `src/`,
reconstructed from its uses in `convertToOpenAPI3`). -/
structure OpenAPI3 : Type where
  Info : Info
  Servers : List Server
  Paths : List (String × PathItem)
  Components : Components

/-- Configuration consumed by `convertToOpenAPI3` (only the server name is
read by the converter). -/
structure Config : Type where
  RelativePath : String
  ServerName : String

/-- Modelled from the spec: the Comment/Tag Parser of section 4.2, whose
source file (`NewCommentParser`) is absent from `src/`.  Given free text it
yields a lookup from tag name to string value; here the single recognized tag
is an inline `description:` annotation, whose value is the text following the
annotation, and a lookup of an absent tag is a defined not-present result
(`none` through `tagLookup`). -/
def parseTags (text : String) : List (String × String) :=
  match text.splitOn "description:" with
  | _ :: rest :: _ => [("description", rest.trim)]
  | _ => []

/-- Tag lookup in a parsed tag list (the parser methods `HasTag` and
`GetString` are modelled by `Option.isSome` of this lookup and by its value). -/
def tagLookup : List (String × String) → String → Option String
  | [], _ => none
  | (k, v) :: rest, key => if k = key then some v else tagLookup rest key

/-- Conditional `description` entry produced through the comment parser:
emitted only when the parsed tags of the free text carry a `description`
tag. -/
def descrEntry (text : String) : JObj :=
  match tagLookup (parseTags text) "description" with
  | some v => [("description", JValue.str v)]
  | none => []

/-- Model of `convertContentToOpenAPI3`: each media type rendered with a
`schema` entry when its schema is non-nil and an `example` entry when its
example is non-nil. -/
def convertContentToOpenAPI3 (content : List (String × MediaType)) : JObj :=
  content.map (fun e =>
    (e.1, JValue.obj
      ((match e.2.Schema with
        | some s => [("schema", JValue.obj (convertSchemaToOpenAPI3 s))]
        | none => []) ++
       (match e.2.Example with
        | some ex => [("example", ex)]
        | none => []))))

/-- Model of `convertOperationToOpenAPI3`: tags, summary and operationId are
always emitted, the description comes through the comment parser, the request
body (with its `required` flag and converted content) is emitted when non-nil,
and every response is rendered with its description and optional content. -/
def convertOperationToOpenAPI3 (op : Operation) : JObj :=
  [("tags", JValue.arr (op.Tags.map JValue.str)),
   ("summary", JValue.str op.Summary),
   ("operationId", JValue.str op.OperationID)] ++
  descrEntry op.Description ++
  (match op.RequestBody with
   | some rb =>
     [("requestBody", JValue.obj
        [("required", JValue.bool rb.Required),
         ("content", JValue.obj (convertContentToOpenAPI3 rb.Content))])]
   | none => []) ++
  [("responses", JValue.obj (op.Responses.map (fun e =>
     (e.1, JValue.obj
       ([("description", JValue.str e.2.Description)] ++
        (match e.2.Content with
         | some c => [("content", JValue.obj (convertContentToOpenAPI3 c))]
         | none => []))))))]

/-- Rendering of one server entry by `convertToOpenAPI3`: url and description
always, a `variables` entry only when the server has variables. -/
def convertServer (server : Server) : JValue :=
  JValue.obj
    ([("url", JValue.str server.URL), ("description", JValue.str server.Description)] ++
     (match server.Variables with
      | [] => []
      | vs => [("variables", JValue.obj (vs.map (fun e =>
          (e.1, JValue.obj
            [("default", JValue.str e.2.Default),
             ("description", JValue.str e.2.Description),
             ("enum", JValue.arr (e.2.Enum.map JValue.str))]))))]))

/-- The default server entry synthesized by `convertToOpenAPI3` when the
document has no servers. -/
def openAPI3DefaultServer : JValue :=
  JValue.obj [("url", JValue.str "http://localhost:8000"),
    ("description", JValue.str "Generated server url")]

/-- Rendering of one path item by `convertToOpenAPI3`: one entry per non-nil
HTTP method operation. -/
def convertPathItemToOpenAPI3 (item : PathItem) : JObj :=
  (match item.Get with
   | some op => [("get", JValue.obj (convertOperationToOpenAPI3 op))]
   | none => []) ++
  (match item.Post with
   | some op => [("post", JValue.obj (convertOperationToOpenAPI3 op))]
   | none => []) ++
  (match item.Put with
   | some op => [("put", JValue.obj (convertOperationToOpenAPI3 op))]
   | none => []) ++
  (match item.Delete with
   | some op => [("delete", JValue.obj (convertOperationToOpenAPI3 op))]
   | none => []) ++
  (match item.Patch with
   | some op => [("patch", JValue.obj (convertOperationToOpenAPI3 op))]
   | none => [])

/-- The output document of `convertToOpenAPI3`: the keys the source assigns
into its result map. -/
structure OpenAPI3Out : Type where
  openapi : String
  info : JObj
  servers : List JValue
  paths : JObj
  components : JObj

/-- Model of `convertToOpenAPI3`: fixed version marker, info block with the
server name and the parsed description tag, the document servers (or the
synthesized default when there are none), every path item converted, and the
components schemas always emitted (`convertSchemasToOpenAPI3` of an absent
schemas map is the empty map, never a missing key). -/
def convertToOpenAPI3 (openapi : OpenAPI3) (config : Config) : OpenAPI3Out :=
  { openapi := "3.0.1"
    info :=
      [("title", JValue.str openapi.Info.Title),
       ("version", JValue.str openapi.Info.Version),
       ("name", JValue.str config.ServerName)] ++ descrEntry openapi.Info.Description
    servers :=
      match openapi.Servers with
      | [] => [openAPI3DefaultServer]
      | ss => ss.map convertServer
    paths := openapi.Paths.map (fun e => (e.1, JValue.obj (convertPathItemToOpenAPI3 e.2)))
    components := [("schemas", JValue.obj (convertSchemasToOpenAPI3 openapi.Components.Schemas))] }

/-- Schema `A` of the shared-reference example: two properties `x` and `y`
both referencing schema `B`. -/
def cexModelA : JObj :=
  [("properties", JValue.obj
    [("x", JValue.obj [("$ref", JValue.str "#/components/schemas/B")]),
     ("y", JValue.obj [("$ref", JValue.str "#/components/schemas/B")])])]

/-- Schema `B` of the shared-reference example: one plain property `z`. -/
def cexModelB : JObj :=
  [("properties", JValue.obj [("z", JValue.obj [("type", JValue.str "string")])])]

/-- The acyclic schemas map of the shared-reference example. -/
def cexSchemas : JObj :=
  [("A", JValue.obj cexModelA), ("B", JValue.obj cexModelB)]

/-- Ranking witness of the acyclicity of `cexSchemas`: `A` above `B`. -/
def cexRank (s : String) : Nat :=
  if s = "A" then 1 else 0

/-- The parameter tree built from schema `A` of the shared-reference example:
the subtree of `B` is duplicated under both referencing properties. -/
def cexTree1 : ParamNode :=
  ParamNode.mk "a" "A" "A" "A" "body" true
    (ParamList.cons
      (ParamNode.mk "x" "" "" "B" "" false
        (ParamList.cons (ParamNode.mk "z" "" "string" "" "" false ParamList.nil) ParamList.nil))
      (ParamList.cons
        (ParamNode.mk "y" "" "" "B" "" false
          (ParamList.cons (ParamNode.mk "z" "" "string" "" "" false ParamList.nil) ParamList.nil))
        ParamList.nil))

/-- The `Widget` schema of the end-to-end example of the specification. -/
def widgetModel : JObj :=
  [("type", JValue.str "object"),
   ("required", JValue.arr [JValue.str "name"]),
   ("properties", JValue.obj
     [("name", JValue.obj [("type", JValue.str "string")]),
      ("tag", JValue.obj [("type", JValue.str "string")])])]

/-- The schemas map of the end-to-end example. -/
def widgetsSchemas : JObj :=
  [("Widget", JValue.obj widgetModel)]

/-- The POST operation of the end-to-end example, with a request body
referencing the `Widget` schema. -/
def widgetsPostOp : JObj :=
  [("requestBody", JValue.obj
    [("content", JValue.obj
      [("application/json", JValue.obj
        [("schema", JValue.obj
          [("$ref", JValue.str "#/components/schemas/Widget")])])])])]

/-- The document of the end-to-end example: one path `/widgets` with the POST
operation above and the `Widget` schema in its components. -/
def widgetsDoc : OpenAPI :=
  { openapi := "3.0.0"
    info := JValue.obj []
    paths := [("/widgets", JValue.obj [("post", JValue.obj widgetsPostOp)])]
    components := some [("schemas", JValue.obj widgetsSchemas)]
    tags := JValue.arr [] }

/-- The converted POST operation of the end-to-end example. -/
def widgetsPostOut : JObj :=
  processOp 3 (some widgetsSchemas) widgetsPostOp

/-- The `name` child node of the end-to-end example tree. -/
def widgetNameNode : ParamNode :=
  ParamNode.mk "name" "" "string" "" "" true ParamList.nil

/-- The `tag` child node of the end-to-end example tree. -/
def widgetTagNode : ParamNode :=
  ParamNode.mk "tag" "" "string" "" "" false ParamList.nil

/-- The parameter tree attached by the end-to-end example conversion. -/
def widgetTree : ParamNode :=
  ParamNode.mk "widget" "Widget" "Widget" "Widget" "body" true
    (ParamList.cons widgetNameNode (ParamList.cons widgetTagNode ParamList.nil))

/-- Operation whose body schema carries a reference with no match in the
components. -/
def missingRefOp : JObj :=
  [("requestBody", JValue.obj
    [("content", JValue.obj
      [("application/json", JValue.obj
        [("schema", JValue.obj
          [("$ref", JValue.str "#/components/schemas/Missing")])])])])]

/-- Empty document of the dynamically typed engine: no paths, nil components. -/
def emptySwaggerDoc : OpenAPI :=
  { openapi := "3.0.0"
    info := JValue.obj []
    paths := []
    components := none
    tags := JValue.arr [] }

/-- Empty document of the typed engine: no servers, no paths, zero-value
components. -/
def emptyOpenAPI3Doc : OpenAPI3 :=
  { Info := { Title := "", Version := "", Description := "" }
    Servers := []
    Paths := []
    Components := { Schemas := [] } }

/-- A concrete configuration value. -/
def sampleConfig : Config :=
  { RelativePath := "", ServerName := "svc" }

/-- Extraction of the `reqParameters` entry of the POST operation of the
`/widgets` path of a document, used to exhibit the in-place mutation of the
source document. -/
def firstOpReq (doc : OpenAPI) : Option JValue :=
  match jlookup doc.paths "/widgets" with
  | some (JValue.obj item) =>
    match jlookup item "post" with
    | some (JValue.obj op) => jlookup op "reqParameters"
    | _ => none
  | _ => none

/-- Schema model of the required-flag example: `required: [a]` with
properties `a` and `b`. -/
def exModel4 : JObj :=
  [("required", JValue.arr [JValue.str "a"]),
   ("properties", JValue.obj
     [("a", JValue.obj [("type", JValue.str "string")]),
      ("b", JValue.obj [("type", JValue.str "string")])])]

/-- The tree built from the required-flag example. -/
def exNode4 : ParamNode :=
  ParamNode.mk "w" "S" "S" "S" "body" true
    (ParamList.cons (ParamNode.mk "a" "" "string" "" "" true ParamList.nil)
      (ParamList.cons (ParamNode.mk "b" "" "string" "" "" false ParamList.nil) ParamList.nil))

/-- Shape of an operation map that carries an attached parameter tree: some
resolvable schema entry was found and its built tree sits under the
`reqParameters` key as a one-element array. -/
def AttachedForm (fuel : Nat) (schemas : Option JObj) (acc : JObj) : Prop :=
  ∃ ss rn model node,
    schemas = some ss
    ∧ jlookup ss rn = some (JValue.obj model)
    ∧ buildReqParameterTree fuel (lowerName rn) rn rn rn true "body" model (some ss) = some node
    ∧ jlookup acc "reqParameters" = some (JValue.arr [paramToJ node])

/-- A property map whose reference has no match in the components used with
it. -/
def missingProp : JObj :=
  [("$ref", JValue.str "#/components/schemas/Missing")]

/-- A small schemas map without the entry `Missing`. -/
def otherSchemas : JObj :=
  [("Other", JValue.obj [])]

/-- A typed document carrying one server entry. -/
def serverDoc : OpenAPI3 :=
  { Info := { Title := "t", Version := "v", Description := "" }
    Servers := [{ URL := "https://api.example.com", Description := "prod", Variables := [] }]
    Paths := []
    Components := { Schemas := [] } }

/-- Stability statement for the parameter tree builder at rank bound `k`: on
every model whose resolvable reference targets all rank below `k`, any two
fuels of at least `k + 1` (below the extra unit consumed at the node itself)
build the same defined tree. -/
def BuildStableAt (schemas : JObj) (rank : String → Nat) (k : Nat) : Prop :=
  ∀ model : JObj, (∀ t ∈ schemaRefs schemas model, rank t < k) →
  ∀ f₁ f₂ : Nat, k + 1 ≤ f₁ → k + 1 ≤ f₂ →
  ∀ n d ty sv r loc,
    buildReqParameterTree (f₁ + 1) n d ty sv r loc model (some schemas)
      = buildReqParameterTree (f₂ + 1) n d ty sv r loc model (some schemas)
    ∧ (buildReqParameterTree (f₁ + 1) n d ty sv r loc model (some schemas)).isSome = true

-- Sanity checks: structural reduction must make these definitional.
theorem sanity_build_small :
    buildReqParameterTree 2 "w" "W" "W" "W" true "body"
      [("properties", JValue.obj [("a", JValue.obj [("type", JValue.str "string")])]),
       ("required", JValue.arr [JValue.str "a"])] none
    = some (ParamNode.mk "w" "W" "W" "W" "body" true
        (ParamList.cons (ParamNode.mk "a" "" "string" "" "" true ParamList.nil) ParamList.nil)) := rfl

theorem sanity_refName : refName "#/components/schemas/Widget" = "Widget" := rfl

theorem sanity_countNodes : countNodes (ParamNode.mk "w" "" "" "" "" true
    (ParamList.cons (ParamNode.mk "a" "" "" "" "" true ParamList.nil) ParamList.nil)) = 2 := rfl

theorem sanity_lowerName : lowerName "Widget" = "widget" := rfl

theorem sanity_build_cex :
    buildReqParameterTree 3 "a" "A" "A" "A" true "body" cexModelA (some cexSchemas)
    = some cexTree1 := rfl

theorem sanity_count_cex : countNodes cexTree1 = 5 := rfl

theorem sanity_distinct_cex : distinctReachablePropCount cexSchemas "A" = 3 := rfl

theorem sanity_widgets_out :
    jlookup widgetsPostOut "reqParameters" = some (JValue.arr [paramToJ widgetTree]) := rfl

theorem sanity_missing_ref :
    jlookup (processOp 5 (some []) missingRefOp) "reqParameters" = none := rfl

theorem sanity_build_required :
    buildReqParameterTree 2 "w" "S" "S" "S" true "body" exModel4 none = some exNode4 := rfl

theorem sanity_occCount : occCount 3 (some cexSchemas) cexModelA = 4 := rfl

/-! ## Helper lemmas -/

theorem afterLastSlashAux_no_slash (cs : List Char) :
    ∀ acc, '/' ∉ cs → afterLastSlashAux acc cs = acc ++ cs := by
  induction cs with
  | nil => intro acc _; simp [afterLastSlashAux]
  | cons c rest ih =>
    intro acc h
    have hc : c ≠ '/' := fun hc => h (hc ▸ List.mem_cons_self c rest)
    have hrest : '/' ∉ rest := fun hr => h (List.mem_cons_of_mem c hr)
    simp [afterLastSlashAux, hc, ih _ hrest]

theorem afterLastSlashAux_append (xs ys : List Char) :
    ∀ acc, afterLastSlashAux acc (xs ++ '/' :: ys) = afterLastSlashAux [] ys := by
  induction xs with
  | nil => intro acc; simp [afterLastSlashAux]
  | cons c rest ih =>
    intro acc
    by_cases hc : c = '/' <;> simp [afterLastSlashAux, hc, ih]

theorem refName_suffix (pre name : String) (h : '/' ∉ name.data) :
    refName (pre ++ "/" ++ name) = name := by
  have hdata : (pre ++ "/" ++ name).data = pre.data ++ '/' :: name.data := by
    cases pre with
    | mk d1 =>
      cases name with
      | mk d2 => simp [String.data]
  rw [refName, hdata, afterLastSlashAux_append, afterLastSlashAux_no_slash _ _ h]
  cases name with
  | mk d2 => rfl

theorem jlookup_setObj_self (o : JObj) (k : String) (v : JValue) :
    jlookup (setObj o k v) k = some v := by
  induction o with
  | nil => simp [setObj, jlookup]
  | cons p rest ih =>
    obtain ⟨k', v'⟩ := p
    by_cases h : k' = k <;> simp [setObj, jlookup, h, ih]

theorem jlookup_setObj_ne (o : JObj) (k k' : String) (v : JValue) (h : k' ≠ k) :
    jlookup (setObj o k v) k' = jlookup o k' := by
  have hne : ¬ k = k' := fun hh => h hh.symm
  induction o with
  | nil => simp [setObj, jlookup, hne]
  | cons p rest ih =>
    obtain ⟨k'', v''⟩ := p
    by_cases h2 : k'' = k
    · subst h2
      simp [setObj, jlookup, hne]
    · simp [setObj, jlookup, h2, ih]

theorem jlookup_append (xs ys : JObj) (k : String) :
    jlookup (xs ++ ys) k
      = match jlookup xs k with
        | some v => some v
        | none => jlookup ys k := by
  induction xs with
  | nil => simp [jlookup]
  | cons p rest ih =>
    obtain ⟨k', v'⟩ := p
    by_cases h : k' = k <;> simp [jlookup, h, ih]

theorem build_eq_mk (fuel : Nat) (n d ty sv : String) (r : Bool) (loc : String)
    (model : JObj) (schemas : Option JObj) (node : ParamNode)
    (h : buildReqParameterTree fuel n d ty sv r loc model schemas = some node) :
    ∃ cs, node = ParamNode.mk n d ty sv loc r cs := by
  cases fuel with
  | zero => exact absurd h (by simp [buildReqParameterTree])
  | succ f =>
    simp only [buildReqParameterTree] at h
    split at h
    · split at h
      · exact absurd h (by simp)
      · exact ⟨_, (Option.some.inj h).symm⟩
    · exact ⟨_, (Option.some.inj h).symm⟩

theorem buildChildren_require (f : Nat) (reqF : List String) (schemas : Option JObj) :
    ∀ props cs,
      buildChildrenWith (buildReqParameterTree f) reqF schemas props = some cs →
      ∀ c ∈ cs.toList, c.require = reqF.contains c.name := by
  intro props
  induction props with
  | nil =>
    intro cs h c hc
    rw [show cs = ParamList.nil from (Option.some.inj h).symm] at hc
    simp [ParamList.toList] at hc
  | cons p rest ih =>
    obtain ⟨pn, pv⟩ := p
    cases pv with
    | obj pm =>
      intro cs h c hc
      simp only [buildChildrenWith] at h
      cases hb : buildReqParameterTree f pn (strField pm "description") (strField pm "type")
          (propRef pm) (reqF.contains pn) "" (resolveChildModel schemas (propRef pm)) schemas with
      | none => rw [hb] at h; exact absurd h (by simp)
      | some child =>
        rw [hb] at h
        cases hrest : buildChildrenWith (buildReqParameterTree f) reqF schemas rest with
        | none => rw [hrest] at h; exact absurd h (by simp)
        | some others =>
          rw [hrest] at h
          rw [show cs = ParamList.cons child others from (Option.some.inj h).symm] at hc
          simp [ParamList.toList] at hc
          rcases hc with rfl | hc
          · obtain ⟨cs', rfl⟩ := build_eq_mk f pn _ _ _ _ _ _ _ _ hb
            simp [ParamNode.require, ParamNode.name]
          · exact ih others hrest c hc
    | null => exact fun cs h c hc => ih cs h c hc
    | bool b => exact fun cs h c hc => ih cs h c hc
    | num n => exact fun cs h c hc => ih cs h c hc
    | str s => exact fun cs h c hc => ih cs h c hc
    | arr a => exact fun cs h c hc => ih cs h c hc

theorem jlookup_strEntry (k' v k : String) :
    jlookup (strEntry k' v) k
      = if k' = k then (if v = "" then none else some (JValue.str v)) else none := by
  by_cases hv : v = "" <;> simp [strEntry, hv, jlookup]

theorem jlookup_numEntry (k' : String) (o : Option Int) (k : String) :
    jlookup (numEntry k' o) k = if k' = k then o.map JValue.num else none := by
  cases o <;> simp [numEntry, jlookup]

theorem jlookup_optEntry (k' : String) (o : Option JValue) (k : String) :
    jlookup (optEntry k' o) k = if k' = k then o else none := by
  cases o <;> simp [optEntry, jlookup]

theorem jlookup_listEntry (k' : String) (vs : List JValue) (k : String) :
    jlookup (listEntry k' vs) k
      = if k' = k then (match vs with | [] => none | _ => some (JValue.arr vs)) else none := by
  cases vs <;> simp [listEntry, jlookup]

theorem jlookup_processContentEntry_ne (fuel : Nat) (schemas : Option JObj) (acc : JObj)
    (cval : JValue) (k : String) (h : k ≠ "reqParameters") :
    jlookup (processContentEntry fuel schemas acc cval) k = jlookup acc k := by
  unfold processContentEntry
  split
  · split
    · exact jlookup_setObj_ne acc "reqParameters" k _ h
    · rfl
  · rfl

theorem jlookup_processOp_ne (fuel : Nat) (schemas : Option JObj) (op : JObj) (k : String)
    (h : k ≠ "reqParameters") :
    jlookup (processOp fuel schemas op) k = jlookup op k := by
  unfold processOp
  split
  · split
    · rename_i content
      have hfold : ∀ (l : List (String × JValue)) (acc : JObj),
          jlookup (l.foldl (fun a e => processContentEntry fuel schemas a e.2) acc) k
            = jlookup acc k := by
        intro l
        induction l with
        | nil => intro acc; rfl
        | cons e rest ih =>
          intro acc
          rw [List.foldl_cons, ih, jlookup_processContentEntry_ne _ _ _ _ _ h]
      exact hfold _ op
    · rfl
  · rfl

/-! ## C4: required flags of property nodes -/

/-- C4: for every schema model with a Required set and properties, the tree
builder marks a property node required exactly when the property name is a
member of the Required set of the schema. -/
theorem C4_required_flag (fuel : Nat) (n d ty sv : String) (r : Bool) (loc : String)
    (model : JObj) (schemas : Option JObj) (node : ParamNode)
    (h : buildReqParameterTree fuel n d ty sv r loc model schemas = some node) :
    ∀ c ∈ node.children.toList, c.require = (requiredSet model).contains c.name := by
  cases fuel with
  | zero => exact absurd h (by simp [buildReqParameterTree])
  | succ f =>
    simp only [buildReqParameterTree] at h
    split at h
    · rename_i props hp
      cases hb : buildChildrenWith (buildReqParameterTree f) (requiredSet model) schemas props with
      | none => rw [hb] at h; exact absurd h (by simp)
      | some cs =>
        rw [hb] at h
        rw [show node = ParamNode.mk n d ty sv loc r cs from (Option.some.inj h).symm]
        simp only [ParamNode.children]
        exact buildChildren_require f (requiredSet model) schemas props cs hb
    · rw [show node = ParamNode.mk n d ty sv loc r ParamList.nil from (Option.some.inj h).symm]
      intro c hc
      simp [ParamNode.children, ParamList.toList] at hc

/-- C4 witness: the schema with `required: [a]` and properties `a`, `b`
yields node `a` required and node `b` not required. -/
theorem C4_required_flag_witness :
    buildReqParameterTree 2 "w" "S" "S" "S" true "body" exModel4 none = some exNode4
    ∧ ∀ c ∈ exNode4.children.toList, c.require = (requiredSet exModel4).contains c.name :=
  ⟨rfl, C4_required_flag 2 "w" "S" "S" "S" true "body" exModel4 none exNode4 rfl⟩

/-! ## C5: reference resolution -/

/-- C5: reference resolution takes the suffix of the Ref string after its
last separator and performs a single-level lookup in the components map; an
absent name yields the defined empty result, and the concrete Ref string of
the specification resolves to the entry named Widget. -/
theorem C5_reference_resolution (pre name : String) (h : '/' ∉ name.data) :
    refName (pre ++ "/" ++ name) = name
    ∧ refName "#/components/schemas/Widget" = "Widget"
    ∧ (∀ n ss m, n ≠ "" → jlookup ss n = some (JValue.obj m) →
        resolveChildModel (some ss) n = m)
    ∧ (∀ n ss, jlookup ss n = none → resolveChildModel (some ss) n = [])
    ∧ (∀ n, resolveChildModel none n = []) := by
  refine ⟨refName_suffix pre name h, rfl, ?_, ?_, ?_⟩
  · intro n ss m hn hm
    simp [resolveChildModel, hn, hm]
  · intro n ss hm
    unfold resolveChildModel
    split
    · rfl
    · simp [hm]
  · intro n
    unfold resolveChildModel
    split <;> rfl

/-- C5 witness: the resolution facts at the concrete Ref string of the
specification. -/
theorem C5_reference_resolution_witness :
    refName ("#/components/schemas" ++ "/" ++ "Widget") = "Widget"
    ∧ resolveChildModel (some widgetsSchemas) "Widget" = widgetModel :=
  ⟨(C5_reference_resolution "#/components/schemas" "Widget" (by decide)).1,
   (C5_reference_resolution "#/components/schemas" "Widget" (by decide)).2.2.1
     "Widget" widgetsSchemas widgetModel (by decide) rfl⟩

/-! ## C2: unresolved references degrade to childless nodes -/

/-- C2: a property whose reference has no match in the components map (or
whose components map is missing) never aborts the build: the affected node is
emitted childless and the remaining properties are processed normally. -/
theorem C2_unresolved_ref (fuel : Nat) (propName : String) (propMap rest : JObj)
    (reqF : List String) (schemas : Option JObj) (ref : String)
    (href : jlookup propMap "$ref" = some (JValue.str ref))
    (hunres : schemas = none ∨ ∃ ss, schemas = some ss ∧ jlookup ss (refName ref) = none) :
    buildChildrenWith (buildReqParameterTree (fuel + 1)) reqF schemas
        ((propName, JValue.obj propMap) :: rest)
      = (buildChildrenWith (buildReqParameterTree (fuel + 1)) reqF schemas rest).map
          (fun others => ParamList.cons
            (ParamNode.mk propName (strField propMap "description") (strField propMap "type")
              (refName ref) "" (reqF.contains propName) ParamList.nil) others) := by
  have hpr : propRef propMap = refName ref := by simp [propRef, href]
  have hres : resolveChildModel schemas (refName ref) = [] := by
    rcases hunres with rfl | ⟨ss, rfl, hss⟩
    · unfold resolveChildModel; split <;> rfl
    · unfold resolveChildModel
      split
      · rfl
      · simp [hss]
  simp only [buildChildrenWith, hpr, hres]
  cases hrest : buildChildrenWith (buildReqParameterTree (fuel + 1)) reqF schemas rest <;>
    simp [buildReqParameterTree, jlookup]

/-- C2 witness: a concrete property referencing the absent schema `Missing`
against a components map without it. -/
theorem C2_unresolved_ref_witness :
    jlookup missingProp "$ref" = some (JValue.str "#/components/schemas/Missing")
    ∧ jlookup otherSchemas (refName "#/components/schemas/Missing") = none
    ∧ buildChildrenWith (buildReqParameterTree 2) [] (some otherSchemas)
        [("p", JValue.obj missingProp)]
      = (buildChildrenWith (buildReqParameterTree 2) [] (some otherSchemas) []).map
          (fun others => ParamList.cons
            (ParamNode.mk "p" (strField missingProp "description") (strField missingProp "type")
              (refName "#/components/schemas/Missing") ""
              (List.contains [] "p") ParamList.nil) others) :=
  ⟨rfl, rfl,
   C2_unresolved_ref 1 "p" missingProp [] [] (some otherSchemas)
     "#/components/schemas/Missing" rfl (Or.inr ⟨otherSchemas, rfl, rfl⟩)⟩

/-! ## C9: constraint attribute preservation in the typed schema converter -/

theorem convertSchema_mk_none (c : SchemaCore) :
    convertSchemaToOpenAPI3 (Schema.mk c none) = schemaObjOut c none := rfl

theorem convertSchema_mk_some (c : SchemaCore) (ps : List (String × Schema)) :
    convertSchemaToOpenAPI3 (Schema.mk c (some ps))
      = schemaObjOut c (some (convertProps ps)) := rfl

/-- C9: for every components schema, the converted schema object preserves
every constraint attribute of the source, with the numeric, string, array and
object bound attributes emitted exactly when present in the source, the
required and enum lists emitted when nonempty, and all six boolean flags
(exclusive bounds, uniqueItems, nullable, readOnly, writeOnly, deprecated)
emitted unconditionally, so an explicitly false flag is emitted rather than
omitted. -/
theorem C9_attribute_preservation (core : SchemaCore)
    (props : Option (List (String × Schema))) :
    (jlookup (convertSchemaToOpenAPI3 (Schema.mk core props)) "multipleOf"
      = core.MultipleOf.map JValue.num)
    ∧ (jlookup (convertSchemaToOpenAPI3 (Schema.mk core props)) "maximum"
      = core.Maximum.map JValue.num)
    ∧ (jlookup (convertSchemaToOpenAPI3 (Schema.mk core props)) "minimum"
      = core.Minimum.map JValue.num)
    ∧ (jlookup (convertSchemaToOpenAPI3 (Schema.mk core props)) "exclusiveMaximum"
      = some (JValue.bool core.ExclusiveMaximum))
    ∧ (jlookup (convertSchemaToOpenAPI3 (Schema.mk core props)) "exclusiveMinimum"
      = some (JValue.bool core.ExclusiveMinimum))
    ∧ (jlookup (convertSchemaToOpenAPI3 (Schema.mk core props)) "maxLength"
      = core.MaxLength.map JValue.num)
    ∧ (jlookup (convertSchemaToOpenAPI3 (Schema.mk core props)) "minLength"
      = core.MinLength.map JValue.num)
    ∧ (jlookup (convertSchemaToOpenAPI3 (Schema.mk core props)) "pattern"
      = if core.Pattern = "" then none else some (JValue.str core.Pattern))
    ∧ (jlookup (convertSchemaToOpenAPI3 (Schema.mk core props)) "maxItems"
      = core.MaxItems.map JValue.num)
    ∧ (jlookup (convertSchemaToOpenAPI3 (Schema.mk core props)) "minItems"
      = core.MinItems.map JValue.num)
    ∧ (jlookup (convertSchemaToOpenAPI3 (Schema.mk core props)) "uniqueItems"
      = some (JValue.bool core.UniqueItems))
    ∧ (jlookup (convertSchemaToOpenAPI3 (Schema.mk core props)) "maxProperties"
      = core.MaxProperties.map JValue.num)
    ∧ (jlookup (convertSchemaToOpenAPI3 (Schema.mk core props)) "minProperties"
      = core.MinProperties.map JValue.num)
    ∧ (jlookup (convertSchemaToOpenAPI3 (Schema.mk core props)) "required"
      = (match core.Required with
        | [] => none
        | _ => some (JValue.arr (core.Required.map JValue.str))))
    ∧ (jlookup (convertSchemaToOpenAPI3 (Schema.mk core props)) "enum"
      = (match core.Enum with
        | [] => none
        | _ => some (JValue.arr core.Enum)))
    ∧ (jlookup (convertSchemaToOpenAPI3 (Schema.mk core props)) "nullable"
      = some (JValue.bool core.Nullable))
    ∧ (jlookup (convertSchemaToOpenAPI3 (Schema.mk core props)) "readOnly"
      = some (JValue.bool core.ReadOnly))
    ∧ (jlookup (convertSchemaToOpenAPI3 (Schema.mk core props)) "writeOnly"
      = some (JValue.bool core.WriteOnly))
    ∧ (jlookup (convertSchemaToOpenAPI3 (Schema.mk core props)) "deprecated"
      = some (JValue.bool core.Deprecated)) := by
  refine ⟨?_, ?_, ?_, ?_, ?_, ?_, ?_, ?_, ?_, ?_, ?_, ?_, ?_, ?_, ?_, ?_, ?_, ?_, ?_⟩
  · cases props <;> cases hx : core.MultipleOf <;>
      simp [convertSchema_mk_none, convertSchema_mk_some, schemaObjOut, jlookup_append, jlookup_strEntry,
        jlookup_numEntry, jlookup_optEntry, jlookup_listEntry, jlookup, hx]
  · cases props <;> cases hx : core.Maximum <;>
      simp [convertSchema_mk_none, convertSchema_mk_some, schemaObjOut, jlookup_append, jlookup_strEntry,
        jlookup_numEntry, jlookup_optEntry, jlookup_listEntry, jlookup, hx]
  · cases props <;> cases hx : core.Minimum <;>
      simp [convertSchema_mk_none, convertSchema_mk_some, schemaObjOut, jlookup_append, jlookup_strEntry,
        jlookup_numEntry, jlookup_optEntry, jlookup_listEntry, jlookup, hx]
  · cases props <;>
      simp [convertSchema_mk_none, convertSchema_mk_some, schemaObjOut, jlookup_append, jlookup_strEntry,
        jlookup_numEntry, jlookup_optEntry, jlookup_listEntry, jlookup]
  · cases props <;>
      simp [convertSchema_mk_none, convertSchema_mk_some, schemaObjOut, jlookup_append, jlookup_strEntry,
        jlookup_numEntry, jlookup_optEntry, jlookup_listEntry, jlookup]
  · cases props <;> cases hx : core.MaxLength <;>
      simp [convertSchema_mk_none, convertSchema_mk_some, schemaObjOut, jlookup_append, jlookup_strEntry,
        jlookup_numEntry, jlookup_optEntry, jlookup_listEntry, jlookup, hx]
  · cases props <;> cases hx : core.MinLength <;>
      simp [convertSchema_mk_none, convertSchema_mk_some, schemaObjOut, jlookup_append, jlookup_strEntry,
        jlookup_numEntry, jlookup_optEntry, jlookup_listEntry, jlookup, hx]
  · cases props <;> by_cases hp : core.Pattern = "" <;>
      simp [convertSchema_mk_none, convertSchema_mk_some, schemaObjOut, jlookup_append, jlookup_strEntry,
        jlookup_numEntry, jlookup_optEntry, jlookup_listEntry, jlookup, hp]
  · cases props <;> cases hx : core.MaxItems <;>
      simp [convertSchema_mk_none, convertSchema_mk_some, schemaObjOut, jlookup_append, jlookup_strEntry,
        jlookup_numEntry, jlookup_optEntry, jlookup_listEntry, jlookup, hx]
  · cases props <;> cases hx : core.MinItems <;>
      simp [convertSchema_mk_none, convertSchema_mk_some, schemaObjOut, jlookup_append, jlookup_strEntry,
        jlookup_numEntry, jlookup_optEntry, jlookup_listEntry, jlookup, hx]
  · cases props <;>
      simp [convertSchema_mk_none, convertSchema_mk_some, schemaObjOut, jlookup_append, jlookup_strEntry,
        jlookup_numEntry, jlookup_optEntry, jlookup_listEntry, jlookup]
  · cases props <;> cases hx : core.MaxProperties <;>
      simp [convertSchema_mk_none, convertSchema_mk_some, schemaObjOut, jlookup_append, jlookup_strEntry,
        jlookup_numEntry, jlookup_optEntry, jlookup_listEntry, jlookup, hx]
  · cases props <;> cases hx : core.MinProperties <;>
      simp [convertSchema_mk_none, convertSchema_mk_some, schemaObjOut, jlookup_append, jlookup_strEntry,
        jlookup_numEntry, jlookup_optEntry, jlookup_listEntry, jlookup, hx]
  · cases props <;> cases hx : core.Required <;>
      simp [convertSchema_mk_none, convertSchema_mk_some, schemaObjOut, jlookup_append, jlookup_strEntry,
        jlookup_numEntry, jlookup_optEntry, jlookup_listEntry, jlookup, hx]
  · cases props <;> cases hx : core.Enum <;>
      simp [convertSchema_mk_none, convertSchema_mk_some, schemaObjOut, jlookup_append, jlookup_strEntry,
        jlookup_numEntry, jlookup_optEntry, jlookup_listEntry, jlookup, hx]
  · cases props <;>
      simp [convertSchema_mk_none, convertSchema_mk_some, schemaObjOut, jlookup_append, jlookup_strEntry,
        jlookup_numEntry, jlookup_optEntry, jlookup_listEntry, jlookup]
  · cases props <;>
      simp [convertSchema_mk_none, convertSchema_mk_some, schemaObjOut, jlookup_append, jlookup_strEntry,
        jlookup_numEntry, jlookup_optEntry, jlookup_listEntry, jlookup]
  · cases props <;>
      simp [convertSchema_mk_none, convertSchema_mk_some, schemaObjOut, jlookup_append, jlookup_strEntry,
        jlookup_numEntry, jlookup_optEntry, jlookup_listEntry, jlookup]
  · cases props <;>
      simp [convertSchema_mk_none, convertSchema_mk_some, schemaObjOut, jlookup_append, jlookup_strEntry,
        jlookup_numEntry, jlookup_optEntry, jlookup_listEntry, jlookup]

/-! ## C7: empty and absent components -/

/-- C7 as amended: a nil components map converts identically to an empty one,
and the empty document converts to empty paths with present keys where each
engine emits them: the typed converter always emits a present, empty
`components.schemas`, while the dynamic converter leaves `components` an
empty object without a `schemas` key. -/
theorem C7_empty_components :
    (∀ (fuel : Nat) (doc : OpenAPI),
      convertToSwagger fuel { doc with components := none }
        = convertToSwagger fuel { doc with components := some [] })
    ∧ (∀ fuel : Nat, (convertToSwagger fuel emptySwaggerDoc).paths = [])
    ∧ (∀ fuel : Nat, (convertToSwagger fuel emptySwaggerDoc).components = [])
    ∧ (convertToOpenAPI3 emptyOpenAPI3Doc sampleConfig).paths = []
    ∧ jlookup (convertToOpenAPI3 emptyOpenAPI3Doc sampleConfig).components "schemas"
      = some (JValue.obj []) :=
  ⟨fun _ _ => rfl, fun _ => rfl, fun _ => rfl, rfl, rfl⟩

/-- C7 counterexample: the empty document converted by the dynamic engine has
no `components.schemas` key at all, against the claimed always-present empty
collection. -/
theorem C7_counterexample :
    jlookup (convertToSwagger 1 emptySwaggerDoc).components "schemas" = none := rfl

/-! ## C8: servers list -/

/-- C8: the typed converter emits the converted document servers exactly when
the document has any, and the synthesized default server exactly when it has
none; the dynamic converter of the older engine always emits its hardcoded
default server (its document model carries no servers). -/
theorem C8_servers :
    (∀ (doc : OpenAPI3) (cfg : Config), doc.Servers = [] →
      (convertToOpenAPI3 doc cfg).servers = [openAPI3DefaultServer])
    ∧ (∀ (doc : OpenAPI3) (cfg : Config), doc.Servers ≠ [] →
      (convertToOpenAPI3 doc cfg).servers = doc.Servers.map convertServer)
    ∧ (∀ (fuel : Nat) (doc : OpenAPI), (convertToSwagger fuel doc).servers
      = [swaggerDefaultServer]) := by
  refine ⟨?_, ?_, fun _ _ => rfl⟩
  · intro doc cfg h
    simp [convertToOpenAPI3, h]
  · intro doc cfg h
    cases hs : doc.Servers with
    | nil => exact absurd hs h
    | cons s rest => simp [convertToOpenAPI3, hs]

/-- C8 witness: the empty document receives the synthesized default server,
the one-server document keeps its converted server entry. -/
theorem C8_servers_witness :
    (convertToOpenAPI3 emptyOpenAPI3Doc sampleConfig).servers = [openAPI3DefaultServer]
    ∧ (convertToOpenAPI3 serverDoc sampleConfig).servers
      = serverDoc.Servers.map convertServer :=
  ⟨C8_servers.1 emptyOpenAPI3Doc sampleConfig rfl,
   C8_servers.2.1 serverDoc sampleConfig (by simp [serverDoc])⟩

/-! ## C6: the conversion mutates the source operation maps -/

/-- C6 as amended: the conversion leaves every field of the source document
unchanged except the operation maps nested under Paths, which are mutated in
place only at their `reqParameters` key; every lookup at any other key of a
processed operation map is unchanged. -/
theorem C6_mutation_frame :
    (∀ (fuel : Nat) (doc : OpenAPI),
      (docAfterConvert fuel doc).openapi = doc.openapi
      ∧ (docAfterConvert fuel doc).info = doc.info
      ∧ (docAfterConvert fuel doc).tags = doc.tags
      ∧ (docAfterConvert fuel doc).components = doc.components)
    ∧ (∀ (fuel : Nat) (schemas : Option JObj) (op : JObj) (k : String),
        k ≠ "reqParameters" →
        jlookup (processOp fuel schemas op) k = jlookup op k) :=
  ⟨fun _ _ => ⟨rfl, rfl, rfl, rfl⟩,
   fun fuel schemas op k h => jlookup_processOp_ne fuel schemas op k h⟩

/-- C6 witness: a lookup at the `requestBody` key of the processed example
operation is unchanged. -/
theorem C6_mutation_frame_witness :
    jlookup (processOp 3 (some widgetsSchemas) widgetsPostOp) "requestBody"
      = jlookup widgetsPostOp "requestBody" :=
  C6_mutation_frame.2 3 (some widgetsSchemas) widgetsPostOp "requestBody" (by decide)

/-- C6 counterexample: converting the end-to-end example document changes the
source document in place, through the aliased operation maps: its POST
operation gains a `reqParameters` entry. -/
theorem C6_counterexample : docAfterConvert 3 widgetsDoc ≠ widgetsDoc := fun h =>
  Bool.noConfusion (congrArg (fun d => (firstOpReq d).isSome) h : true = false)

/-! ## C3 and C10: attachment of the request parameter tree -/

theorem bind_objOf_some (o : Option JValue) (m : JObj) (h : o.bind objOf = some m) :
    o = some (JValue.obj m) := by
  cases o with
  | none => simp at h
  | some v =>
    cases v <;> simp [objOf] at h
    rw [h]

theorem contentEntryResolved_some (schemas : Option JObj) (cval : JValue)
    (rn : String) (model ss : JObj)
    (h : contentEntryResolved schemas cval = some (rn, model, ss)) :
    schemas = some ss ∧ jlookup ss rn = some (JValue.obj model) := by
  unfold contentEntryResolved at h
  cases h0 : objOf cval with
  | none => simp only [h0] at h; exact absurd h (by simp)
  | some cMap =>
    simp only [h0] at h
    cases h1 : (jlookup cMap "schema").bind objOf with
    | none => simp only [h1] at h; exact absurd h (by simp)
    | some schemaObj =>
      simp only [h1] at h
      cases h2 : (jlookup schemaObj "$ref").bind strOf with
      | none => simp only [h2] at h; exact absurd h (by simp)
      | some ref =>
        simp only [h2] at h
        cases schemas with
        | none => exact absurd h (by simp)
        | some ss' =>
          cases h3 : (jlookup ss' (refName ref)).bind objOf with
          | none => simp only [h3] at h; exact absurd h (by simp)
          | some model' =>
            simp only [h3] at h
            simp at h
            obtain ⟨hrn, hmodel, hss⟩ := h
            subst hrn
            subst hmodel
            subst hss
            exact ⟨rfl, bind_objOf_some _ _ h3⟩

theorem processContentEntry_cases (fuel : Nat) (schemas : Option JObj) (acc : JObj)
    (cval : JValue) :
    processContentEntry fuel schemas acc cval = acc
    ∨ ∃ rn model ss node,
        contentEntryResolved schemas cval = some (rn, model, ss)
        ∧ buildReqParameterTree fuel (lowerName rn) rn rn rn true "body" model (some ss)
          = some node
        ∧ processContentEntry fuel schemas acc cval
          = setObj acc "reqParameters" (JValue.arr [paramToJ node]) := by
  cases hres : contentEntryResolved schemas cval with
  | none =>
    left
    unfold processContentEntry
    simp [hres]
  | some t =>
    obtain ⟨rn, model, ss⟩ := t
    cases hb : buildReqParameterTree fuel (lowerName rn) rn rn rn true "body" model (some ss) with
    | none =>
      left
      unfold processContentEntry
      simp [hres, hb]
    | some node =>
      right
      refine ⟨rn, model, ss, node, rfl, hb, ?_⟩
      unfold processContentEntry
      simp [hres, hb]

theorem attach_invariant_step (fuel : Nat) (schemas : Option JObj) (acc : JObj) (cval : JValue)
    (h : jlookup acc "reqParameters" = none ∨ AttachedForm fuel schemas acc) :
    jlookup (processContentEntry fuel schemas acc cval) "reqParameters" = none
    ∨ AttachedForm fuel schemas (processContentEntry fuel schemas acc cval) := by
  rcases processContentEntry_cases fuel schemas acc cval with heq | ⟨rn, model, ss, node, hres, hb, heq⟩
  · rw [heq]; exact h
  · right
    obtain ⟨hss, hlk⟩ := contentEntryResolved_some schemas cval rn model ss hres
    refine ⟨ss, rn, model, node, hss, hlk, hb, ?_⟩
    rw [heq]
    exact jlookup_setObj_self acc "reqParameters" _

theorem attach_invariant_fold (fuel : Nat) (schemas : Option JObj) :
    ∀ (l : List (String × JValue)) (acc : JObj),
      (jlookup acc "reqParameters" = none ∨ AttachedForm fuel schemas acc) →
      jlookup (l.foldl (fun a e => processContentEntry fuel schemas a e.2) acc)
          "reqParameters" = none
      ∨ AttachedForm fuel schemas
          (l.foldl (fun a e => processContentEntry fuel schemas a e.2) acc) := by
  intro l
  induction l with
  | nil => intro acc h; exact h
  | cons e rest ih =>
    intro acc h
    rw [List.foldl_cons]
    exact ih _ (attach_invariant_step fuel schemas acc e.2 h)

/-- C10: whenever the conversion attaches a `reqParameters` entry to an
operation that had none, the attached value is a one-element array whose root
node carries the lowercased referenced schema name as its name, the schema
name as description, type and schemaValue, location `body` and the require
flag `true`, regardless of the required flag of the request body. -/
theorem C10_root_node (fuel : Nat) (schemas : Option JObj) (op : JObj) (v : JValue)
    (hpre : jlookup op "reqParameters" = none)
    (hpost : jlookup (processOp fuel schemas op) "reqParameters" = some v) :
    ∃ ss rn model node,
      schemas = some ss
      ∧ jlookup ss rn = some (JValue.obj model)
      ∧ buildReqParameterTree fuel (lowerName rn) rn rn rn true "body" model (some ss)
        = some node
      ∧ v = JValue.arr [paramToJ node]
      ∧ node.name = lowerName rn ∧ node.description = rn ∧ node.schemaType = rn
      ∧ node.schemaValue = rn ∧ node.inLoc = "body" ∧ node.require = true := by
  unfold processOp at hpost
  cases h0 : (jlookup op "requestBody").bind objOf with
  | none =>
    rw [h0] at hpost
    simp [hpre] at hpost
  | some rb =>
    rw [h0] at hpost
    simp only [hpre] at hpost
    cases h1 : (jlookup rb "content").bind objOf with
    | none =>
      rw [h1] at hpost
      simp [hpre] at hpost
    | some content =>
      rw [h1] at hpost
      simp only [hpre] at hpost
      rcases attach_invariant_fold fuel schemas content op (Or.inl hpre) with hnone |
        ⟨ss, rn, model, node, hss, hlk, hb, hattach⟩
      · rw [hnone] at hpost; exact absurd hpost (by simp)
      · rw [hattach] at hpost
        obtain rfl : JValue.arr [paramToJ node] = v := Option.some.inj hpost
        obtain ⟨cs, rfl⟩ := build_eq_mk fuel _ _ _ _ _ _ _ _ _ hb
        exact ⟨ss, rn, model, _, hss, hlk, hb, rfl, rfl, rfl, rfl, rfl, rfl, rfl⟩

/-- C10 witness: the attachment of the end-to-end example. -/
theorem C10_root_node_witness :
    ∃ ss rn model node,
      (some widgetsSchemas : Option JObj) = some ss
      ∧ jlookup ss rn = some (JValue.obj model)
      ∧ buildReqParameterTree 3 (lowerName rn) rn rn rn true "body" model (some ss)
        = some node
      ∧ JValue.arr [paramToJ widgetTree] = JValue.arr [paramToJ node]
      ∧ node.name = lowerName rn ∧ node.description = rn ∧ node.schemaType = rn
      ∧ node.schemaValue = rn ∧ node.inLoc = "body" ∧ node.require = true :=
  C10_root_node 3 (some widgetsSchemas) widgetsPostOp (JValue.arr [paramToJ widgetTree]) rfl rfl

theorem processContentEntry_isSome (fuel : Nat) (schemas : Option JObj) (acc : JObj)
    (cval : JValue)
    (hfuel : ∀ ss rn model, schemas = some ss → jlookup ss rn = some (JValue.obj model) →
      (buildReqParameterTree fuel (lowerName rn) rn rn rn true "body" model (some ss)).isSome
        = true) :
    (jlookup (processContentEntry fuel schemas acc cval) "reqParameters").isSome
      = ((jlookup acc "reqParameters").isSome || (contentEntryResolved schemas cval).isSome) := by
  cases hres : contentEntryResolved schemas cval with
  | none => unfold processContentEntry; rw [hres]; simp
  | some t =>
    obtain ⟨rn, model, ss⟩ := t
    obtain ⟨hss, hlk⟩ := contentEntryResolved_some schemas cval rn model ss hres
    obtain ⟨node, hb⟩ := Option.isSome_iff_exists.mp (hfuel ss rn model hss hlk)
    unfold processContentEntry
    rw [hres]
    simp [hb, jlookup_setObj_self]

theorem processContent_fold_isSome (fuel : Nat) (schemas : Option JObj)
    (hfuel : ∀ ss rn model, schemas = some ss → jlookup ss rn = some (JValue.obj model) →
      (buildReqParameterTree fuel (lowerName rn) rn rn rn true "body" model (some ss)).isSome
        = true) :
    ∀ (l : List (String × JValue)) (acc : JObj),
      (jlookup (l.foldl (fun a e => processContentEntry fuel schemas a e.2) acc)
          "reqParameters").isSome
        = ((jlookup acc "reqParameters").isSome
            || l.any (fun e => (contentEntryResolved schemas e.2).isSome)) := by
  intro l
  induction l with
  | nil => intro acc; simp
  | cons e rest ih =>
    intro acc
    rw [List.foldl_cons, ih, processContentEntry_isSome fuel schemas acc e.2 hfuel]
    simp [Bool.or_assoc]

/-- C3 as amended: an operation without a prior `reqParameters` key carries
one after conversion exactly when some request body content entry has a
schema whose reference resolves in the present schemas map (a plain body, and
equally an unresolvable reference, yields none); and in the end-to-end
example the attached tree has exactly the children `name` (required) and
`tag` (not required). -/
theorem C3_reqParameters (fuel : Nat) (schemas : Option JObj) (op : JObj)
    (hpre : jlookup op "reqParameters" = none)
    (hfuel : ∀ ss rn model, schemas = some ss → jlookup ss rn = some (JValue.obj model) →
      (buildReqParameterTree fuel (lowerName rn) rn rn rn true "body" model (some ss)).isSome
        = true) :
    ((jlookup (processOp fuel schemas op) "reqParameters").isSome = true
      ↔ hasResolvableBodyRef schemas op = true)
    ∧ jlookup (convertToSwagger 3 widgetsDoc).paths "/widgets"
      = some (JValue.obj [("post", JValue.obj widgetsPostOut)])
    ∧ jlookup widgetsPostOut "reqParameters" = some (JValue.arr [paramToJ widgetTree])
    ∧ widgetTree.children.toList = [widgetNameNode, widgetTagNode]
    ∧ widgetNameNode.name = "name" ∧ widgetNameNode.require = true
    ∧ widgetTagNode.name = "tag" ∧ widgetTagNode.require = false := by
  refine ⟨?_, rfl, rfl, rfl, rfl, rfl, rfl, rfl⟩
  unfold processOp hasResolvableBodyRef
  cases h0 : (jlookup op "requestBody").bind objOf with
  | none => simp [hpre]
  | some rb =>
    cases h1 : (jlookup rb "content").bind objOf with
    | none => simp [h1, hpre]
    | some content =>
      simp [h1, processContent_fold_isSome fuel schemas hfuel, hpre]

/-- C3 counterexample: an operation whose body schema is reference-typed but
whose reference has no match (or whose components are missing) gets no
`reqParameters` entry, against the claimed attachment for every reference-
typed body schema. -/
theorem C3_counterexample :
    bodyRefs missingRefOp = ["#/components/schemas/Missing"]
    ∧ jlookup (processOp 5 (some []) missingRefOp) "reqParameters" = none
    ∧ jlookup (processOp 5 none missingRefOp) "reqParameters" = none :=
  ⟨rfl, rfl, rfl⟩

/-- C3 witness: the equivalence at the end-to-end example operation. -/
theorem C3_reqParameters_witness :
    (jlookup (processOp 3 (some widgetsSchemas) widgetsPostOp) "reqParameters").isSome = true
      ↔ hasResolvableBodyRef (some widgetsSchemas) widgetsPostOp = true :=
  (C3_reqParameters 3 (some widgetsSchemas) widgetsPostOp rfl (by
    intro ss rn model hss hrn
    obtain rfl : widgetsSchemas = ss := Option.some.inj hss
    by_cases hw : "Widget" = rn
    · subst hw
      have heval : jlookup widgetsSchemas "Widget" = some (JValue.obj widgetModel) := rfl
      rw [heval] at hrn
      simp at hrn
      subst hrn
      rfl
    · have : jlookup widgetsSchemas rn = none := by
        simp [widgetsSchemas, jlookup, hw]
      rw [this] at hrn
      exact absurd hrn (by simp))).1

/-! ## C1: termination and node count of the parameter tree builder -/

theorem build_nil_model (f : Nat) (n d ty sv : String) (r : Bool) (loc : String)
    (ss : Option JObj) :
    buildReqParameterTree (f + 1) n d ty sv r loc [] ss
      = some (ParamNode.mk n d ty sv loc r ParamList.nil) := rfl

theorem build_succ_eq (f : Nat) (n d ty sv : String) (r : Bool) (loc : String)
    (model : JObj) (ss : Option JObj) :
    buildReqParameterTree (f + 1) n d ty sv r loc model ss
      = match jlookup model "properties" with
        | some (JValue.obj props) =>
          match buildChildrenWith (buildReqParameterTree f) (requiredSet model) ss props with
          | none => none
          | some children => some (ParamNode.mk n d ty sv loc r children)
        | _ => some (ParamNode.mk n d ty sv loc r ParamList.nil) := rfl

theorem build_props_eq (f : Nat) (n d ty sv : String) (r : Bool) (loc : String)
    (model : JObj) (ss : Option JObj) (props : JObj)
    (hp : jlookup model "properties" = some (JValue.obj props)) :
    buildReqParameterTree (f + 1) n d ty sv r loc model ss
      = match buildChildrenWith (buildReqParameterTree f) (requiredSet model) ss props with
        | none => none
        | some children => some (ParamNode.mk n d ty sv loc r children) := by
  rw [build_succ_eq, hp]

theorem resolveChildModel_cases (schemas : JObj) (t : String) :
    resolveChildModel (some schemas) t = []
    ∨ ∃ m, t ≠ "" ∧ jlookup schemas t = some (JValue.obj m)
        ∧ resolveChildModel (some schemas) t = m := by
  by_cases ht : t = ""
  · left; simp [resolveChildModel, ht]
  · cases hl : jlookup schemas t with
    | none => left; simp [resolveChildModel, ht, hl]
    | some v =>
      cases v with
      | obj m =>
        right
        refine ⟨m, ht, rfl, ?_⟩
        simp [resolveChildModel, ht, hl]
      | null => left; simp [resolveChildModel, ht, hl]
      | bool x => left; simp [resolveChildModel, ht, hl]
      | num x => left; simp [resolveChildModel, ht, hl]
      | str x => left; simp [resolveChildModel, ht, hl]
      | arr x => left; simp [resolveChildModel, ht, hl]

theorem propRef_mem_targets (schemas : JObj) (pn : String) (pm rest : JObj) (m : JObj)
    (hne : propRef pm ≠ "") (hm : jlookup schemas (propRef pm) = some (JValue.obj m)) :
    propRef pm ∈ propsRefTargets schemas ((pn, JValue.obj pm) :: rest) := by
  simp [propsRefTargets, hne, hm]

theorem targets_tail_obj (schemas : JObj) (pn : String) (pm rest : JObj) (t : String)
    (ht : t ∈ propsRefTargets schemas rest) :
    t ∈ propsRefTargets schemas ((pn, JValue.obj pm) :: rest) := by
  simp only [propsRefTargets]
  exact List.mem_append_right _ ht

theorem bcw_stable (schemas : JObj) (rank : String → Nat)
    (hrank : ∀ s m, jlookup schemas s = some (JValue.obj m) →
      ∀ t ∈ schemaRefs schemas m, rank t < rank s)
    (k : Nat) (IH : ∀ k' : Nat, k' < k → BuildStableAt schemas rank k')
    (a b : Nat) (ha : k ≤ a) (hb : k ≤ b) (reqF : List String) :
    ∀ props : JObj, (∀ t ∈ propsRefTargets schemas props, rank t < k) →
      buildChildrenWith (buildReqParameterTree (a + 1)) reqF (some schemas) props
        = buildChildrenWith (buildReqParameterTree (b + 1)) reqF (some schemas) props
      ∧ (buildChildrenWith (buildReqParameterTree (a + 1)) reqF (some schemas) props).isSome
        = true := by
  intro props
  induction props with
  | nil => intro _; exact ⟨rfl, rfl⟩
  | cons p rest ih =>
    obtain ⟨pn, pv⟩ := p
    cases pv with
    | obj pm =>
      intro htgt
      have hrest : ∀ t ∈ propsRefTargets schemas rest, rank t < k :=
        fun t ht => htgt t (targets_tail_obj schemas pn pm rest t ht)
      obtain ⟨hre, hrs⟩ := ih hrest
      obtain ⟨others, hos⟩ := Option.isSome_iff_exists.mp hrs
      rcases resolveChildModel_cases schemas (propRef pm) with hcm | ⟨m, hne, hlk, hcm⟩
      · constructor
        · simp only [buildChildrenWith, hcm]
          rw [build_nil_model a, build_nil_model b, ← hre, hos]
        · simp only [buildChildrenWith, hcm, Option.isSome]
          rw [build_nil_model a, hos]
      · have htk : rank (propRef pm) < k :=
          htgt _ (propRef_mem_targets schemas pn pm rest m hne hlk)
        have hm' : ∀ u ∈ schemaRefs schemas m, rank u < rank (propRef pm) := hrank _ m hlk
        have hstep := IH (rank (propRef pm)) htk m hm' a b (by omega) (by omega) pn
          (strField pm "description") (strField pm "type") (propRef pm) (reqF.contains pn) ""
        obtain ⟨child, hchild⟩ := Option.isSome_iff_exists.mp hstep.2
        constructor
        · simp only [buildChildrenWith, hcm]
          rw [← hstep.1, hchild, ← hre, hos]
        · simp only [buildChildrenWith, hcm]
          rw [hchild, hos]
          rfl
    | null => exact fun htgt => ih htgt
    | bool x => exact fun htgt => ih htgt
    | num x => exact fun htgt => ih htgt
    | str x => exact fun htgt => ih htgt
    | arr x => exact fun htgt => ih htgt

theorem build_stable (schemas : JObj) (rank : String → Nat)
    (hrank : ∀ s m, jlookup schemas s = some (JValue.obj m) →
      ∀ t ∈ schemaRefs schemas m, rank t < rank s) :
    ∀ k : Nat, BuildStableAt schemas rank k := by
  intro k
  induction k using Nat.strong_induction_on with
  | _ k IH =>
    intro model hm f₁ f₂ h₁ h₂ n d ty sv r loc
    obtain ⟨a, rfl⟩ : ∃ a, f₁ = a + 1 := ⟨f₁ - 1, by omega⟩
    obtain ⟨b, rfl⟩ : ∃ b, f₂ = b + 1 := ⟨f₂ - 1, by omega⟩
    have ha : k ≤ a := by omega
    have hb : k ≤ b := by omega
    cases hp : jlookup model "properties" with
    | none => exact ⟨by simp [buildReqParameterTree, hp], by simp [buildReqParameterTree, hp]⟩
    | some v =>
      cases v with
      | obj props =>
        have htgt : ∀ t ∈ propsRefTargets schemas props, rank t < k := by
          intro t ht
          apply hm
          simp only [schemaRefs, hp]
          exact ht
        obtain ⟨hcheq, hcsome⟩ :=
          bcw_stable schemas rank hrank k IH a b ha hb (requiredSet model) props htgt
        obtain ⟨cs, hcs⟩ := Option.isSome_iff_exists.mp hcsome
        constructor
        · rw [build_props_eq (a + 1) n d ty sv r loc model (some schemas) props hp,
            build_props_eq (b + 1) n d ty sv r loc model (some schemas) props hp,
            ← hcheq, hcs]
        · rw [build_props_eq (a + 1) n d ty sv r loc model (some schemas) props hp, hcs]
          rfl
      | null => exact ⟨by simp [buildReqParameterTree, hp], by simp [buildReqParameterTree, hp]⟩
      | bool x => exact ⟨by simp [buildReqParameterTree, hp], by simp [buildReqParameterTree, hp]⟩
      | num x => exact ⟨by simp [buildReqParameterTree, hp], by simp [buildReqParameterTree, hp]⟩
      | str x => exact ⟨by simp [buildReqParameterTree, hp], by simp [buildReqParameterTree, hp]⟩
      | arr x => exact ⟨by simp [buildReqParameterTree, hp], by simp [buildReqParameterTree, hp]⟩

theorem build_count :
    ∀ (fuel : Nat) (n d ty sv : String) (r : Bool) (loc : String) (model : JObj)
      (schemas : Option JObj) (node : ParamNode),
      buildReqParameterTree fuel n d ty sv r loc model schemas = some node →
      countNodes node = 1 + occCount fuel schemas model := by
  intro fuel
  induction fuel with
  | zero =>
    intro n d ty sv r loc model schemas node h
    exact absurd h (by simp [buildReqParameterTree])
  | succ f ihf =>
    intro n d ty sv r loc model schemas node h
    have hlist : ∀ (reqF : List String) (props : JObj) (cs : ParamList),
        buildChildrenWith (buildReqParameterTree f) reqF schemas props = some cs →
        countList cs = occProps (occCount f schemas) schemas props := by
      intro reqF props
      induction props with
      | nil =>
        intro cs hcs
        rw [show cs = ParamList.nil from (Option.some.inj hcs).symm]
        rfl
      | cons p rest ihr =>
        obtain ⟨pn, pv⟩ := p
        cases pv with
        | obj pm =>
          intro cs hcs
          simp only [buildChildrenWith] at hcs
          cases hcb : buildReqParameterTree f pn (strField pm "description")
              (strField pm "type") (propRef pm) (reqF.contains pn) ""
              (resolveChildModel schemas (propRef pm)) schemas with
          | none => rw [hcb] at hcs; exact absurd hcs (by simp)
          | some child =>
            rw [hcb] at hcs
            cases hrest : buildChildrenWith (buildReqParameterTree f) reqF schemas rest with
            | none => rw [hrest] at hcs; exact absurd hcs (by simp)
            | some others =>
              rw [hrest] at hcs
              rw [show cs = ParamList.cons child others from (Option.some.inj hcs).symm]
              have hc := ihf pn _ _ _ _ _ _ _ _ hcb
              have ho := ihr others hrest
              simp only [countList, occProps]
              omega
        | null => exact fun cs hcs => ihr cs hcs
        | bool x => exact fun cs hcs => ihr cs hcs
        | num x => exact fun cs hcs => ihr cs hcs
        | str x => exact fun cs hcs => ihr cs hcs
        | arr x => exact fun cs hcs => ihr cs hcs
    cases hp : jlookup model "properties" with
    | none =>
      simp only [buildReqParameterTree] at h
      rw [hp] at h
      rw [show node = ParamNode.mk n d ty sv loc r ParamList.nil from (Option.some.inj h).symm]
      simp [countNodes, countList, occCount, hp]
    | some v =>
      cases v with
      | obj props =>
        rw [build_props_eq f n d ty sv r loc model schemas props hp] at h
        cases hcb : buildChildrenWith (buildReqParameterTree f) (requiredSet model)
            schemas props with
        | none => rw [hcb] at h; exact absurd h (by simp)
        | some cs =>
          rw [hcb] at h
          rw [show node = ParamNode.mk n d ty sv loc r cs from (Option.some.inj h).symm]
          have := hlist (requiredSet model) props cs hcb
          simp [countNodes, occCount, hp, this]
      | null =>
        simp only [buildReqParameterTree] at h
        rw [hp] at h
        rw [show node = ParamNode.mk n d ty sv loc r ParamList.nil from (Option.some.inj h).symm]
        simp [countNodes, countList, occCount, hp]
      | bool x =>
        simp only [buildReqParameterTree] at h
        rw [hp] at h
        rw [show node = ParamNode.mk n d ty sv loc r ParamList.nil from (Option.some.inj h).symm]
        simp [countNodes, countList, occCount, hp]
      | num x =>
        simp only [buildReqParameterTree] at h
        rw [hp] at h
        rw [show node = ParamNode.mk n d ty sv loc r ParamList.nil from (Option.some.inj h).symm]
        simp [countNodes, countList, occCount, hp]
      | str x =>
        simp only [buildReqParameterTree] at h
        rw [hp] at h
        rw [show node = ParamNode.mk n d ty sv loc r ParamList.nil from (Option.some.inj h).symm]
        simp [countNodes, countList, occCount, hp]
      | arr x =>
        simp only [buildReqParameterTree] at h
        rw [hp] at h
        rw [show node = ParamNode.mk n d ty sv loc r ParamList.nil from (Option.some.inj h).symm]
        simp [countNodes, countList, occCount, hp]

/-- C1 as amended: on a components map whose reference graph is acyclic
(witnessed by a rank function decreasing across resolvable references), the
parameter tree builder started at any components entry stabilizes: every fuel
of at least the entry rank plus two builds the same defined tree, and the node
count of that tree is one plus the number of property occurrences reachable
from the root, counted once per reference path (`occCount`; a schema
referenced from several properties contributes its properties once per
referencing occurrence). -/
theorem C1_tree_count (schemas : JObj) (rank : String → Nat)
    (hrank : ∀ s m, jlookup schemas s = some (JValue.obj m) →
      ∀ t ∈ schemaRefs schemas m, rank t < rank s)
    (root : String) (model : JObj)
    (hroot : jlookup schemas root = some (JValue.obj model))
    (name description schemaType schemaValue : String) (required : Bool) (inLoc : String) :
    ∃ node,
      (∀ fuel, rank root + 2 ≤ fuel →
        buildReqParameterTree fuel name description schemaType schemaValue required inLoc
          model (some schemas) = some node)
      ∧ countNodes node = 1 + occCount (rank root + 2) (some schemas) model := by
  have hm : ∀ t ∈ schemaRefs schemas model, rank t < rank root :=
    fun t ht => hrank root model hroot t ht
  have hbase := build_stable schemas rank hrank (rank root) model hm
    (rank root + 1) (rank root + 1) (Nat.le_refl _) (Nat.le_refl _)
    name description schemaType schemaValue required inLoc
  obtain ⟨node, hnode⟩ := Option.isSome_iff_exists.mp hbase.2
  refine ⟨node, ?_, ?_⟩
  · intro fuel hf
    obtain ⟨g, rfl⟩ : ∃ g, fuel = g + 1 := ⟨fuel - 1, by omega⟩
    have hg := (build_stable schemas rank hrank (rank root) model hm
      g (rank root + 1) (by omega) (Nat.le_refl _)
      name description schemaType schemaValue required inLoc).1
    rw [hg]
    exact hnode
  · exact build_count (rank root + 2) name description schemaType schemaValue required inLoc
      model (some schemas) node hnode

theorem cex_hrank : ∀ s m, jlookup cexSchemas s = some (JValue.obj m) →
    ∀ t ∈ schemaRefs cexSchemas m, cexRank t < cexRank s := by
  intro s m hs t ht
  by_cases hA : "A" = s
  · subst hA
    rw [show jlookup cexSchemas "A" = some (JValue.obj cexModelA) from rfl] at hs
    simp at hs
    subst hs
    rw [show schemaRefs cexSchemas cexModelA = ["B", "B"] from rfl] at ht
    simp at ht
    subst ht
    decide
  · by_cases hB : "B" = s
    · subst hB
      rw [show jlookup cexSchemas "B" = some (JValue.obj cexModelB) from rfl] at hs
      simp at hs
      subst hs
      rw [show schemaRefs cexSchemas cexModelB = [] from rfl] at ht
      simp at ht
    · rw [show jlookup cexSchemas s = if "A" = s then some (JValue.obj cexModelA)
          else if "B" = s then some (JValue.obj cexModelB) else none from rfl] at hs
      rw [if_neg hA, if_neg hB] at hs
      exact absurd hs (by simp)

/-- C1 counterexample: the acyclic schemas map with `A` referencing `B` from
two properties (ranks decrease along every resolvable reference and `B` has
no outgoing references) builds a five-node tree from `A`, while the number of
distinct reachable schema properties is three: the claimed count of distinct
properties plus one is four, not five, because the shared subtree of `B` is
duplicated under both referencing properties. -/
theorem C1_counterexample :
    schemaRefs cexSchemas cexModelA = ["B", "B"]
    ∧ schemaRefs cexSchemas cexModelB = []
    ∧ buildReqParameterTree 3 "a" "A" "A" "A" true "body" cexModelA (some cexSchemas)
      = some cexTree1
    ∧ countNodes cexTree1 = 5
    ∧ distinctReachablePropCount cexSchemas "A" = 3
    ∧ countNodes cexTree1 ≠ distinctReachablePropCount cexSchemas "A" + 1 :=
  ⟨rfl, rfl, rfl, rfl, rfl, by decide⟩

/-- C1 witness: the amended count at the shared-reference example. -/
theorem C1_tree_count_witness :
    countNodes cexTree1 = 1 + occCount (cexRank "A" + 2) (some cexSchemas) cexModelA := by
  obtain ⟨node, hst, hcnt⟩ := C1_tree_count cexSchemas cexRank cex_hrank "A" cexModelA rfl
    "a" "A" "A" "A" true "body"
  have h := hst (cexRank "A" + 2) (Nat.le_refl _)
  rw [show buildReqParameterTree (cexRank "A" + 2) "a" "A" "A" "A" true "body" cexModelA
      (some cexSchemas) = some cexTree1 from rfl] at h
  rw [show node = cexTree1 from (Option.some.inj h).symm] at hcnt
  exact hcnt
